import Mathlib

/-!
Verification of `AudioBufferGroup` (src/OgreGameLib/AudioBufferGroup.cpp).

The class is a registry mapping relative file paths to OpenAL buffer
handles (`ALuint`, modelled as `Nat`; `0` is the null-buffer sentinel),
owned by a parent `AudioManager`.  External collaborators (the boost
filesystem check, `alureCreateBufferFromFile`, the
`alDeleteBuffers` / `alIsBuffer` pair) are modelled as a fixed response
oracle `Backend`; observable calls to collaborators are recorded as an
`Event` trace.  The `boost::unordered_map` is modelled as an association
list with unique keys (the map invariant); iterators are modelled by the
key of the entry they point to.
-/

set_option autoImplicit false

namespace AudioBufferGroup

/-- Oracle for the external collaborators:
`fsOk p` models `boost::filesystem::exists(p) && is_regular_file(p)`,
`createBuf p` models `alureCreateBufferFromFile(p)` (`0` = `AL_NONE`,
i.e. failure), and `stillValid h` models the result of `alIsBuffer(h)`
right after `alDeleteBuffers(1, &h)` was requested (`true` when the
backend refused the deletion because the buffer is still in use). -/
structure Backend where
  fsOk : String → Bool
  createBuf : String → Nat
  stillValid : Nat → Bool

/-- Observable calls made to the external collaborators. -/
inductive Event where
  /-- An existence / regular-file check of the given path. -/
  | fsCheck (path : String)
  /-- A call to `alureCreateBufferFromFile` with the given path. -/
  | alureCreate (path : String)
  /-- A call to `alDeleteBuffers` on the given handle. -/
  | alDelete (handle : Nat)
  /-- A call to `AudioManager::purgeBufferFromSources` for the handle. -/
  | purgeBuffer (handle : Nat)
  deriving DecidableEq

/-- State of one `AudioBufferGroup`: `m_IsParentAudioManagerValid`,
`m_PathPrefix`, `m_Buffers` (association list standing for the
`boost::unordered_map<std::string, ALuint>`), `m_BufferGroupLoaded`.
The group name is omitted: it is only used in log messages. -/
structure State where
  isParentValid : Bool
  pathPref : String
  buffers : List (String × Nat)
  groupLoaded : Bool
  deriving DecidableEq

/-- Model of `m_Buffers.find(p)`: value stored at key `p`, if any. -/
def findBuf : List (String × Nat) → String → Option Nat
  | [], _ => none
  | (k, v) :: rest, p => if k = p then some v else findBuf rest p

/-- Model of writing through an iterator (`iter->second = v`):
replace the value at key `p`. -/
def setBuf : List (String × Nat) → String → Nat → List (String × Nat)
  | [], _, _ => []
  | (k, v) :: rest, p, h => if k = p then (p, h) :: rest else (k, v) :: setBuf rest p h

/-- Model of `m_Buffers.erase(iter)`: drop the entry at key `p`. -/
def eraseBuf : List (String × Nat) → String → List (String × Nat)
  | [], _ => []
  | (k, v) :: rest, p => if k = p then rest else (k, v) :: eraseBuf rest p

/-- Body of `AudioBufferGroup::loadBuffer` (lines 146-192) over the
fields it reads and writes.  `p` is the key of the entry the iterator
argument points to; the `none` branch is unreachable at every call site
(the C++ callers always pass a valid iterator).  Returns the C++ return
value, the updated map and the trace of collaborator calls. -/
def loadBufferCore (B : Backend) (valid : Bool) (pre : String)
    (bufs : List (String × Nat)) (p : String) (verify : Bool) :
    Bool × List (String × Nat) × List Event :=
  if valid = false then (false, bufs, [])
  else
    match findBuf bufs p with
    | none => (false, bufs, [])
    | some h =>
      if h ≠ 0 then (false, bufs, [])
      else if verify = true ∧ B.fsOk (pre ++ p) = false then
        (false, bufs, [Event.fsCheck (pre ++ p)])
      else
        let checkEvents := if verify = true then [Event.fsCheck (pre ++ p)] else []
        let newBuffer := B.createBuf p
        if newBuffer = 0 then
          (false, bufs, checkEvents ++ [Event.alureCreate p])
        else
          (true, setBuf bufs p newBuffer, checkEvents ++ [Event.alureCreate p])

/-- `AudioBufferGroup::loadBuffer`, lifted to the group state. -/
def loadBuffer (B : Backend) (g : State) (p : String) (verify : Bool) :
    Bool × State × List Event :=
  let r := loadBufferCore B g.isParentValid g.pathPref g.buffers p verify
  (r.1, { g with buffers := r.2.1 }, r.2.2)

/-- Body of `AudioBufferGroup::unloadBuffer` (lines 207-235).
`alDeleteBuffers` is requested on a non-zero handle; the handle is reset
to `0` only when `alIsBuffer` then reports it gone, otherwise it is kept
and the call fails.  The `none` branch is unreachable at call sites. -/
def unloadBufferCore (B : Backend) (valid : Bool)
    (bufs : List (String × Nat)) (p : String) :
    Bool × List (String × Nat) × List Event :=
  if valid = false then (false, bufs, [])
  else
    match findBuf bufs p with
    | none => (false, bufs, [])
    | some h =>
      if h ≠ 0 then
        if B.stillValid h = false then
          (true, setBuf bufs p 0, [Event.alDelete h])
        else
          (false, bufs, [Event.alDelete h])
      else
        (true, bufs, [])

/-- `AudioBufferGroup::unloadBuffer`, lifted to the group state. -/
def unloadBuffer (B : Backend) (g : State) (p : String) :
    Bool × State × List Event :=
  let r := unloadBufferCore B g.isParentValid g.buffers p
  (r.1, { g with buffers := r.2.1 }, r.2.2)

/-- Body of `AudioBufferGroup::addBuffer` (lines 60-99): guard on the
manager validity, existence check of `m_PathPrefix + file_path`,
`emplace(file_path, 0)` (which fails on a duplicate key and leaves the
map unchanged), then an immediate `loadBuffer` on the fresh entry when
the group is in the loaded state.  The immediate load is modelled with
`verify = false`: the default argument lives in the header (not part of
the reviewed sources), and its value is immaterial here because the
existence check on the same path `pre ++ p` has just succeeded. -/
def addBufferCore (B : Backend) (valid : Bool) (pre : String) (loaded : Bool)
    (bufs : List (String × Nat)) (p : String) :
    Bool × List (String × Nat) × List Event :=
  if valid = false then (false, bufs, [])
  else if B.fsOk (pre ++ p) = false then (false, bufs, [Event.fsCheck (pre ++ p)])
  else
    match findBuf bufs p with
    | some _ => (false, bufs, [Event.fsCheck (pre ++ p)])
    | none =>
      let bufs1 := bufs ++ [(p, 0)]
      if loaded = true then
        let r := loadBufferCore B valid pre bufs1 p false
        (r.1, r.2.1, Event.fsCheck (pre ++ p) :: r.2.2)
      else
        (true, bufs1, [Event.fsCheck (pre ++ p)])

/-- `AudioBufferGroup::addBuffer`, lifted to the group state. -/
def addBuffer (B : Backend) (g : State) (p : String) :
    Bool × State × List Event :=
  let r := addBufferCore B g.isParentValid g.pathPref g.groupLoaded g.buffers p
  (r.1, { g with buffers := r.2.1 }, r.2.2)

/-- Body of `AudioBufferGroup::removeBuffer` (lines 113-126): when the
manager is valid and the path is registered, purge the handle from the
sources, call `unloadBuffer` on the iterator, then erase the entry
unconditionally. -/
def removeBufferCore (B : Backend) (valid : Bool)
    (bufs : List (String × Nat)) (p : String) :
    List (String × Nat) × List Event :=
  if valid = false then (bufs, [])
  else
    match findBuf bufs p with
    | none => (bufs, [])
    | some h =>
      let r := unloadBufferCore B valid bufs p
      (eraseBuf r.2.1 p, Event.purgeBuffer h :: r.2.2)

/-- `AudioBufferGroup::removeBuffer`, lifted to the group state. -/
def removeBuffer (B : Backend) (g : State) (p : String) :
    State × List Event :=
  let r := removeBufferCore B g.isParentValid g.buffers p
  ({ g with buffers := r.1 }, r.2)

/-- `AudioBufferGroup::getBuffer` (lines 37-47): lookup returning the
`0` sentinel when the path is absent. -/
def getBuffer (g : State) (p : String) : Nat :=
  match findBuf g.buffers p with
  | some v => v
  | none => 0

/-- Loop body of `AudioBufferGroup::loadBuffers` (lines 199-202):
iterate over the keys of the map, calling `loadBuffer` on each entry and
counting the successes.  The key list is a snapshot of the map keys,
which the loop itself never changes. -/
def loadBuffersLoop (B : Backend) (valid : Bool) (pre : String) (verify : Bool) :
    List (String × Nat) → List String → Nat × List (String × Nat)
  | bufs, [] => (0, bufs)
  | bufs, k :: ks =>
    let r := loadBufferCore B valid pre bufs k verify
    let rest := loadBuffersLoop B valid pre verify r.2.1 ks
    ((if r.1 = true then 1 else 0) + rest.1, rest.2)

/-- `AudioBufferGroup::loadBuffers` (lines 194-205): set
`m_BufferGroupLoaded` to `true`, then run the load loop over every
entry and return the number of successful loads. -/
def loadBuffers (B : Backend) (g : State) (verify : Bool) : Nat × State :=
  let r := loadBuffersLoop B g.isParentValid g.pathPref verify g.buffers
    (g.buffers.map Prod.fst)
  (r.1, { g with groupLoaded := true, buffers := r.2 })

/-- Loop body of `AudioBufferGroup::unloadBuffers` (lines 242-245):
iterate over the keys of the map, calling `unloadBuffer` on each entry
and counting the failures. -/
def unloadBuffersLoop (B : Backend) (valid : Bool) :
    List (String × Nat) → List String → Nat × List (String × Nat)
  | bufs, [] => (0, bufs)
  | bufs, k :: ks =>
    let r := unloadBufferCore B valid bufs k
    let rest := unloadBuffersLoop B valid r.2.1 ks
    ((if r.1 = true then 0 else 1) + rest.1, rest.2)

/-- `AudioBufferGroup::unloadBuffers` (lines 237-248): set
`m_BufferGroupLoaded` to `false`, then run the unload loop over every
entry and return the number of failed unloads. -/
def unloadBuffers (B : Backend) (g : State) : Nat × State :=
  let r := unloadBuffersLoop B g.isParentValid g.buffers (g.buffers.map Prod.fst)
  (r.1, { g with groupLoaded := false, buffers := r.2 })

/-! Concrete backends and group states used to exercise the theorems on
closed inputs. -/

/-- Backend where every file exists, decode always yields handle 7 and
deletion always succeeds. -/
def bkOk : Backend := ⟨fun _ => true, fun _ => 7, fun _ => false⟩

/-- Backend where every file exists, decode always yields handle 7 and
the backend always refuses deletion (buffer still in use). -/
def bkBusy : Backend := ⟨fun _ => true, fun _ => 7, fun _ => true⟩

/-- Backend where every file exists but decode always fails. -/
def bkFail : Backend := ⟨fun _ => true, fun _ => 0, fun _ => false⟩

/-- Valid group with one unloaded and one loaded entry. -/
def gMix : State := ⟨true, "snd/", [("a", 0), ("b", 5)], false⟩

/-- Valid group in the loaded state with no entries. -/
def gLoaded : State := ⟨true, "snd/", [], true⟩

/-- Group whose parent manager has been invalidated. -/
def gDead : State := ⟨false, "snd/", [("a", 0)], false⟩

/-! Proof-side characterizations of the effect of one load / unload call
on the single entry it targets.  These are derived views used to reason
about the batch loops; the theorems below relate them to the cores. -/

/-- Entry produced by one `loadBuffer` call on `e`: the handle becomes
the backend result exactly when the entry was unloaded, the optional
existence re-check passes and the backend creation succeeds. -/
def loadEntry (B : Backend) (valid : Bool) (pre : String) (verify : Bool)
    (e : String × Nat) : String × Nat :=
  if valid = true ∧ e.2 = 0 ∧ (verify = false ∨ B.fsOk (pre ++ e.1) = true) ∧
      B.createBuf e.1 ≠ 0
  then (e.1, B.createBuf e.1) else e

/-- Whether one `loadBuffer` call on `e` returns success. -/
def loadSucc (B : Backend) (valid : Bool) (pre : String) (verify : Bool)
    (e : String × Nat) : Bool :=
  decide (valid = true ∧ e.2 = 0 ∧ (verify = false ∨ B.fsOk (pre ++ e.1) = true) ∧
    B.createBuf e.1 ≠ 0)

/-- Entry produced by one `unloadBuffer` call on `e`: the handle is
cleared exactly when the manager is valid, the handle was non-zero and
the backend let the deletion happen. -/
def unloadEntry (B : Backend) (valid : Bool) (e : String × Nat) : String × Nat :=
  if valid = true ∧ e.2 ≠ 0 ∧ B.stillValid e.2 = false then (e.1, 0) else e

/-- Whether one `unloadBuffer` call on `e` returns failure. -/
def unloadFail (B : Backend) (valid : Bool) (e : String × Nat) : Bool :=
  decide (valid = false ∨ (e.2 ≠ 0 ∧ B.stillValid e.2 = true))

/-! Basic facts about the association-list model of the map. -/

theorem findBuf_eq_none (bufs : List (String × Nat)) (p : String) :
    findBuf bufs p = none ↔ p ∉ bufs.map Prod.fst := by
  induction bufs with
  | nil => simp [findBuf]
  | cons e rest ih =>
    obtain ⟨k, v⟩ := e
    simp only [findBuf, List.map_cons, List.mem_cons]
    by_cases hk : k = p
    · simp [hk]
    · constructor
      · intro hnone hmem
        rcases hmem with hmem | hmem
        · exact hk hmem.symm
        · rw [if_neg hk] at hnone
          exact (ih.mp hnone) hmem
      · intro hnotin
        rw [if_neg hk]
        exact ih.mpr fun hmem => hnotin (Or.inr hmem)

theorem setBuf_map_fst (bufs : List (String × Nat)) (p : String) (v : Nat) :
    (setBuf bufs p v).map Prod.fst = bufs.map Prod.fst := by
  induction bufs with
  | nil => simp [setBuf]
  | cons e rest ih =>
    obtain ⟨k, w⟩ := e
    by_cases hk : k = p <;> simp [setBuf, hk, ih]

theorem findBuf_eraseBuf (bufs : List (String × Nat)) (p : String)
    (hnd : (bufs.map Prod.fst).Nodup) :
    findBuf (eraseBuf bufs p) p = none := by
  induction bufs with
  | nil => simp [eraseBuf, findBuf]
  | cons e rest ih =>
    obtain ⟨k, v⟩ := e
    simp only [List.map_cons, List.nodup_cons] at hnd
    by_cases hk : k = p
    · simp only [eraseBuf, hk, if_pos rfl]
      exact (findBuf_eq_none rest p).2 (hk ▸ hnd.1)
    · simp [eraseBuf, hk, findBuf, ih hnd.2]

theorem findBuf_append_none (bufs : List (String × Nat)) (p : String) (v : Nat)
    (hnone : findBuf bufs p = none) :
    findBuf (bufs ++ [(p, v)]) p = some v := by
  induction bufs with
  | nil => simp [findBuf]
  | cons e rest ih =>
    obtain ⟨k, w⟩ := e
    by_cases hk : k = p
    · simp [findBuf, hk] at hnone
    · simp only [findBuf, hk, if_neg hk] at hnone ⊢
      exact ih hnone

theorem setBuf_append_none (bufs : List (String × Nat)) (p : String) (v w : Nat)
    (hnone : findBuf bufs p = none) :
    setBuf (bufs ++ [(p, v)]) p w = bufs ++ [(p, w)] := by
  induction bufs with
  | nil => simp [setBuf]
  | cons e rest ih =>
    obtain ⟨k, u⟩ := e
    by_cases hk : k = p
    · simp [findBuf, hk] at hnone
    · simp only [findBuf, hk, if_neg hk] at hnone
      simp [setBuf, hk, ih hnone]

/-- C1: adding an already-registered path fails and leaves the whole
group state (in particular the buffer map, entries and handles)
unchanged, whatever the group state and backend. -/
theorem addBuffer_duplicate_rejected (B : Backend) (g : State) (p : String) (h : Nat)
    (hreg : findBuf g.buffers p = some h) :
    (addBuffer B g p).1 = false ∧ (addBuffer B g p).2.1 = g := by
  obtain ⟨gv, gp, gb, gl⟩ := g
  cases gv
  · simp [addBuffer, addBufferCore]
  · by_cases hfs : B.fsOk (gp ++ p) = false
    · simp [addBuffer, addBufferCore, hfs]
    · simp [addBuffer, addBufferCore, hfs, hreg]

/-- Witness for C1 at a concrete duplicate path. -/
theorem addBuffer_duplicate_rejected_witness :
    (addBuffer bkOk gMix "b").1 = false ∧ (addBuffer bkOk gMix "b").2.1 = gMix :=
  addBuffer_duplicate_rejected bkOk gMix "b" 5 (by decide)

/-- C2: loading an entry whose handle is already non-zero fails and has
no effect at all: the state is returned unchanged and no collaborator
call happens. -/
theorem loadBuffer_already_loaded (B : Backend) (g : State) (p : String) (h : Nat)
    (verify : Bool) (hreg : findBuf g.buffers p = some h) (hnz : h ≠ 0) :
    loadBuffer B g p verify = (false, g, []) := by
  obtain ⟨gv, gp, gb, gl⟩ := g
  cases gv
  · simp [loadBuffer, loadBufferCore]
  · simp [loadBuffer, loadBufferCore, hreg, hnz]

/-- Witness for C2 at a concrete loaded entry. -/
theorem loadBuffer_already_loaded_witness :
    loadBuffer bkOk gMix "b" true = (false, gMix, []) :=
  loadBuffer_already_loaded bkOk gMix "b" 5 true (by decide) (by decide)

/-- C3: when the handle is non-zero and the backend still reports the
handle valid after the deletion request, unloadBuffer fails and the
entry keeps its previous handle (the state is unchanged; only the
deletion request was issued). -/
theorem unloadBuffer_still_referenced (B : Backend) (g : State) (p : String) (h : Nat)
    (hv : g.isParentValid = true) (hreg : findBuf g.buffers p = some h)
    (hnz : h ≠ 0) (hsv : B.stillValid h = true) :
    unloadBuffer B g p = (false, g, [Event.alDelete h]) := by
  obtain ⟨gv, gp, gb, gl⟩ := g
  cases gv
  · simp at hv
  · simp [unloadBuffer, unloadBufferCore, hreg, hnz, hsv]

/-- Witness for C3 at a concrete loaded entry with a busy backend. -/
theorem unloadBuffer_still_referenced_witness :
    unloadBuffer bkBusy gMix "b" = (false, gMix, [Event.alDelete 5]) :=
  unloadBuffer_still_referenced bkBusy gMix "b" 5 (by decide) (by decide)
    (by decide) (by decide)

/-- C5: when an unloaded entry (handle 0) reaches the backend creation
call and the backend fails (returns the null handle), loadBuffer
returns false and the group state is unchanged: the handle is still 0. -/
theorem loadBuffer_backend_failure (B : Backend) (g : State) (p : String)
    (verify : Bool) (hv : g.isParentValid = true)
    (hreg : findBuf g.buffers p = some 0)
    (hfs : verify = true → B.fsOk (g.pathPref ++ p) = true)
    (hcb : B.createBuf p = 0) :
    (loadBuffer B g p verify).1 = false ∧ (loadBuffer B g p verify).2.1 = g := by
  obtain ⟨gv, gp, gb, gl⟩ := g
  cases gv
  · simp at hv
  · by_cases hvf : verify = true
    · simp [loadBuffer, loadBufferCore, hreg, hvf, hfs hvf, hcb]
    · simp [loadBuffer, loadBufferCore, hreg, hvf, hcb]

/-- Witness for C5 at a concrete unloaded entry with a failing backend. -/
theorem loadBuffer_backend_failure_witness :
    (loadBuffer bkFail gMix "a" true).1 = false ∧
    (loadBuffer bkFail gMix "a" true).2.1 = gMix :=
  loadBuffer_backend_failure bkFail gMix "a" true (by decide) (by decide)
    (fun _ => by decide) (by decide)

theorem unloadBufferCore_map_fst (B : Backend) (valid : Bool)
    (bufs : List (String × Nat)) (p : String) :
    ((unloadBufferCore B valid bufs p).2.1).map Prod.fst = bufs.map Prod.fst := by
  unfold unloadBufferCore
  by_cases hv : valid = false
  · simp [hv]
  · cases hf : findBuf bufs p with
    | none => simp [hv, hf]
    | some h =>
      by_cases hz : h = 0
      · simp [hv, hf, hz]
      · by_cases hs : B.stillValid h = false
        · simp [hv, hf, hz, hs, setBuf_map_fst]
        · simp [hv, hf, hz, hs]

/-- C6 (amended): for a fresh path, addBuffer fails without inserting
when the manager is invalid or the prefixed path does not pass the
existence check; otherwise it inserts the path with handle 0 and, when
the group is not in the loaded state, succeeds; when the group is in the
loaded state it immediately attempts the load, the stored handle becomes
the backend result, and the call succeeds exactly when that immediate
load succeeds (backend handle non-zero). -/
theorem addBuffer_fresh_path (B : Backend) (g : State) (p : String)
    (hnew : findBuf g.buffers p = none) :
    (g.isParentValid = false →
      (addBuffer B g p).1 = false ∧ (addBuffer B g p).2.1 = g) ∧
    (g.isParentValid = true → B.fsOk (g.pathPref ++ p) = false →
      (addBuffer B g p).1 = false ∧ (addBuffer B g p).2.1 = g) ∧
    (g.isParentValid = true → B.fsOk (g.pathPref ++ p) = true →
      g.groupLoaded = false →
      addBuffer B g p =
        (true, { g with buffers := g.buffers ++ [(p, 0)] },
          [Event.fsCheck (g.pathPref ++ p)])) ∧
    (g.isParentValid = true → B.fsOk (g.pathPref ++ p) = true →
      g.groupLoaded = true →
      (addBuffer B g p).2.1 =
        { g with buffers := g.buffers ++ [(p, B.createBuf p)] } ∧
      ((addBuffer B g p).1 = true ↔ B.createBuf p ≠ 0)) := by
  obtain ⟨gv, gp, gb, gl⟩ := g
  have hnew' : findBuf gb p = none := hnew
  refine ⟨?_, ?_, ?_, ?_⟩
  · intro hv
    have hv' : gv = false := hv
    subst hv'
    simp [addBuffer, addBufferCore]
  · intro hv hfs
    have hv' : gv = true := hv
    subst hv'
    simp [addBuffer, addBufferCore, hfs]
  · intro hv hfs hgl
    have hv' : gv = true := hv
    subst hv'
    have hgl' : gl = false := hgl
    subst hgl'
    simp [addBuffer, addBufferCore, hfs, hnew']
  · intro hv hfs hgl
    have hv' : gv = true := hv
    subst hv'
    have hgl' : gl = true := hgl
    subst hgl'
    have hfind := findBuf_append_none gb p 0 hnew'
    by_cases hcb : B.createBuf p = 0
    · simp [addBuffer, addBufferCore, loadBufferCore, hfs, hnew', hfind, hcb]
    · have hset := setBuf_append_none gb p 0 (B.createBuf p) hnew'
      simp [addBuffer, addBufferCore, loadBufferCore, hfs, hnew', hfind, hcb, hset]

/-- C6 counterexample: valid manager, loaded group, existing file, but
the backend creation call fails.  addBuffer inserts the path (it is
registered afterwards, with handle 0) yet returns false, so the claim
that on insertion the call succeeds is false. -/
theorem addBuffer_fresh_path_cex :
    (addBuffer bkFail gLoaded "a").1 = false ∧
    findBuf (addBuffer bkFail gLoaded "a").2.1.buffers "a" = some 0 := by
  decide

/-- Witness for C6 at a concrete fresh path in a non-loaded group. -/
theorem addBuffer_fresh_path_witness :
    addBuffer bkOk gMix "c" =
      (true, { gMix with buffers := gMix.buffers ++ [("c", 0)] },
        [Event.fsCheck (gMix.pathPref ++ "c")]) :=
  (addBuffer_fresh_path bkOk gMix "c" (by decide)).2.2.1 rfl rfl rfl

/-- C4: with a valid manager and a registered path, removeBuffer first
issues the purge of the handle from the sources, then performs the
unload, then erases the entry, so a subsequent getBuffer on that path
returns the 0 sentinel; with an invalid manager or an unknown path it
changes nothing and calls nothing. -/
theorem removeBuffer_spec (B : Backend) (g : State) (p : String) (h : Nat)
    (hnd : (g.buffers.map Prod.fst).Nodup) :
    (g.isParentValid = true → findBuf g.buffers p = some h →
      (removeBuffer B g p).2 = Event.purgeBuffer h :: (unloadBuffer B g p).2.2 ∧
      (removeBuffer B g p).1.buffers =
        eraseBuf (unloadBuffer B g p).2.1.buffers p ∧
      getBuffer (removeBuffer B g p).1 p = 0) ∧
    (g.isParentValid = false ∨ findBuf g.buffers p = none →
      removeBuffer B g p = (g, [])) := by
  obtain ⟨gv, gp, gb, gl⟩ := g
  have hnd' : (gb.map Prod.fst).Nodup := hnd
  refine ⟨?_, ?_⟩
  · intro hv hreg
    have hv' : gv = true := hv
    subst hv'
    have hkeys := unloadBufferCore_map_fst B true gb p
    have herase := findBuf_eraseBuf ((unloadBufferCore B true gb p).2.1) p
      (by rw [hkeys]; exact hnd')
    refine ⟨?_, ?_, ?_⟩
    · simp [removeBuffer, removeBufferCore, unloadBuffer, hreg]
    · simp [removeBuffer, removeBufferCore, unloadBuffer, hreg]
    · simp [removeBuffer, removeBufferCore, getBuffer, hreg, herase]
  · intro hcase
    cases gv
    · simp [removeBuffer, removeBufferCore]
    · rcases hcase with hcase | hcase
      · simp at hcase
      · simp [removeBuffer, removeBufferCore, hcase]

/-- Witness for C4 at a concrete registered path with a busy backend. -/
theorem removeBuffer_spec_witness :
    (removeBuffer bkBusy gMix "b").2 =
      Event.purgeBuffer 5 :: (unloadBuffer bkBusy gMix "b").2.2 ∧
    (removeBuffer bkBusy gMix "b").1.buffers =
      eraseBuf (unloadBuffer bkBusy gMix "b").2.1.buffers "b" ∧
    getBuffer (removeBuffer bkBusy gMix "b").1 "b" = 0 :=
  (removeBuffer_spec bkBusy gMix "b" 5 (by decide)).1 rfl (by decide)

/-- C10: when the unload step of removeBuffer fails because the backend
still reports the handle valid after the deletion request, the entry is
erased all the same: the deletion request was issued, the unload
reported failure, yet the path is gone from the registry, dropping a
live backend handle. -/
theorem removeBuffer_drops_live_handle (B : Backend) (g : State) (p : String)
    (h : Nat) (hv : g.isParentValid = true) (hreg : findBuf g.buffers p = some h)
    (hnz : h ≠ 0) (hsv : B.stillValid h = true)
    (hnd : (g.buffers.map Prod.fst).Nodup) :
    (unloadBuffer B g p).1 = false ∧
    removeBuffer B g p = ({ g with buffers := eraseBuf g.buffers p },
      [Event.purgeBuffer h, Event.alDelete h]) ∧
    findBuf (removeBuffer B g p).1.buffers p = none := by
  obtain ⟨gv, gp, gb, gl⟩ := g
  have hv' : gv = true := hv
  subst hv'
  have hnd' : (gb.map Prod.fst).Nodup := hnd
  refine ⟨?_, ?_, ?_⟩
  · simp [unloadBuffer, unloadBufferCore, hreg, hnz, hsv]
  · simp [removeBuffer, removeBufferCore, unloadBufferCore, hreg, hnz, hsv]
  · simp [removeBuffer, removeBufferCore, unloadBufferCore, hreg, hnz, hsv,
      findBuf_eraseBuf gb p hnd']

/-- Witness for C10 at a concrete loaded entry with a busy backend. -/
theorem removeBuffer_drops_live_handle_witness :
    (unloadBuffer bkBusy gMix "b").1 = false ∧
    removeBuffer bkBusy gMix "b" = ({ gMix with buffers := eraseBuf gMix.buffers "b" },
      [Event.purgeBuffer 5, Event.alDelete 5]) ∧
    findBuf (removeBuffer bkBusy gMix "b").1.buffers "b" = none :=
  removeBuffer_drops_live_handle bkBusy gMix "b" 5 rfl (by decide) (by decide)
    (by decide) (by decide)

/-- C9: when loadBuffer reaches the backend, the creation call receives
the bare relative path while the existence checks (the optional re-check
in loadBuffer and the one in addBuffer) receive the prefix-concatenated
path; with a non-empty path prefix those two paths are always
different. -/
theorem loadBuffer_path_mismatch (B : Backend) (g : State) (p : String)
    (hv : g.isParentValid = true) (hreg : findBuf g.buffers p = some 0)
    (hfs : B.fsOk (g.pathPref ++ p) = true) :
    (loadBuffer B g p true).2.2 =
      [Event.fsCheck (g.pathPref ++ p), Event.alureCreate p] ∧
    (addBuffer B g p).2.2.head? = some (Event.fsCheck (g.pathPref ++ p)) ∧
    (g.pathPref ≠ "" → g.pathPref ++ p ≠ p) := by
  obtain ⟨gv, gp, gb, gl⟩ := g
  have hv' : gv = true := hv
  subst hv'
  refine ⟨?_, ?_, ?_⟩
  · by_cases hcb : B.createBuf p = 0 <;>
      simp [loadBuffer, loadBufferCore, hreg, hfs, hcb]
  · simp [addBuffer, addBufferCore, hreg, hfs]
  · intro hpre hcontra
    have hc' : gp ++ p = p := hcontra
    have hlen := congrArg String.length hc'
    rw [String.length_append] at hlen
    have hz : String.length gp = 0 := by omega
    apply hpre
    cases gp with
    | mk data =>
      cases data with
      | nil => rfl
      | cons c cs => simp [String.length] at hz

/-- Witness for C9 on a group with non-empty path prefix. -/
theorem loadBuffer_path_mismatch_witness :
    (loadBuffer bkOk gMix "a" true).2.2 =
      [Event.fsCheck (gMix.pathPref ++ "a"), Event.alureCreate "a"] ∧
    (addBuffer bkOk gMix "a").2.2.head? =
      some (Event.fsCheck (gMix.pathPref ++ "a")) ∧
    (gMix.pathPref ≠ "" → gMix.pathPref ++ "a" ≠ "a") :=
  loadBuffer_path_mismatch bkOk gMix "a" rfl (by decide) (by decide)

/-! Facts about the batch loops: each iteration only touches the entry
whose key it processes, so iterating over the (distinct) keys of the map
acts entrywise. -/

theorem loadEntry_fst (B : Backend) (valid : Bool) (pre : String) (verify : Bool)
    (e : String × Nat) : (loadEntry B valid pre verify e).1 = e.1 := by
  unfold loadEntry
  split
  · rfl
  · rfl

theorem unloadEntry_fst (B : Backend) (valid : Bool) (e : String × Nat) :
    (unloadEntry B valid e).1 = e.1 := by
  unfold unloadEntry
  split
  · rfl
  · rfl

theorem loadBufferCore_head (B : Backend) (valid : Bool) (pre : String)
    (verify : Bool) (k : String) (h : Nat) (bufs : List (String × Nat)) :
    (loadBufferCore B valid pre ((k, h) :: bufs) k verify).1 =
      loadSucc B valid pre verify (k, h) ∧
    (loadBufferCore B valid pre ((k, h) :: bufs) k verify).2.1 =
      loadEntry B valid pre verify (k, h) :: bufs := by
  cases valid
  · simp [loadBufferCore, loadSucc, loadEntry]
  · by_cases hz : h = 0
    · subst hz
      by_cases hvf : verify = true
      · by_cases hfs : B.fsOk (pre ++ k) = true
        · by_cases hcb : B.createBuf k = 0
          · simp [loadBufferCore, loadSucc, loadEntry, findBuf, setBuf, hvf, hfs, hcb]
          · simp [loadBufferCore, loadSucc, loadEntry, findBuf, setBuf, hvf, hfs, hcb]
        · simp [loadBufferCore, loadSucc, loadEntry, findBuf, hvf, hfs]
      · by_cases hcb : B.createBuf k = 0
        · simp [loadBufferCore, loadSucc, loadEntry, findBuf, setBuf, hvf, hcb]
        · simp [loadBufferCore, loadSucc, loadEntry, findBuf, setBuf, hvf, hcb]
    · simp [loadBufferCore, loadSucc, loadEntry, findBuf, hz]

theorem unloadBufferCore_head (B : Backend) (valid : Bool) (k : String)
    (h : Nat) (bufs : List (String × Nat)) :
    (unloadBufferCore B valid ((k, h) :: bufs) k).1 =
      !(unloadFail B valid (k, h)) ∧
    (unloadBufferCore B valid ((k, h) :: bufs) k).2.1 =
      unloadEntry B valid (k, h) :: bufs := by
  cases valid
  · simp [unloadBufferCore, unloadFail, unloadEntry]
  · by_cases hz : h = 0
    · subst hz
      simp [unloadBufferCore, unloadFail, unloadEntry, findBuf]
    · by_cases hs : B.stillValid h = false
      · simp [unloadBufferCore, unloadFail, unloadEntry, findBuf, setBuf, hz, hs]
      · simp [unloadBufferCore, unloadFail, unloadEntry, findBuf, hz, hs]

theorem loadBufferCore_cons_ne (B : Backend) (valid : Bool) (pre : String)
    (e : String × Nat) (bufs : List (String × Nat)) (p : String) (verify : Bool)
    (hne : e.1 ≠ p) :
    loadBufferCore B valid pre (e :: bufs) p verify =
      ((loadBufferCore B valid pre bufs p verify).1,
        e :: (loadBufferCore B valid pre bufs p verify).2.1,
        (loadBufferCore B valid pre bufs p verify).2.2) := by
  obtain ⟨k, h⟩ := e
  have hne' : k ≠ p := hne
  cases valid
  · simp [loadBufferCore]
  · cases hf : findBuf bufs p with
    | none => simp [loadBufferCore, findBuf, hne', hf]
    | some hh =>
      by_cases hz : hh = 0
      · subst hz
        by_cases hc : verify = true ∧ B.fsOk (pre ++ p) = false
        · simp [loadBufferCore, findBuf, hne', hf, hc]
        · by_cases hcb : B.createBuf p = 0
          · simp [loadBufferCore, findBuf, hne', hf, hc, hcb]
          · simp [loadBufferCore, findBuf, setBuf, hne', hf, hc, hcb]
      · simp [loadBufferCore, findBuf, hne', hf, hz]

theorem unloadBufferCore_cons_ne (B : Backend) (valid : Bool)
    (e : String × Nat) (bufs : List (String × Nat)) (p : String)
    (hne : e.1 ≠ p) :
    unloadBufferCore B valid (e :: bufs) p =
      ((unloadBufferCore B valid bufs p).1,
        e :: (unloadBufferCore B valid bufs p).2.1,
        (unloadBufferCore B valid bufs p).2.2) := by
  obtain ⟨k, h⟩ := e
  have hne' : k ≠ p := hne
  cases valid
  · simp [unloadBufferCore]
  · cases hf : findBuf bufs p with
    | none => simp [unloadBufferCore, findBuf, hne', hf]
    | some hh =>
      by_cases hz : hh = 0
      · simp [unloadBufferCore, findBuf, hne', hf, hz]
      · by_cases hs : B.stillValid hh = false
        · simp [unloadBufferCore, findBuf, setBuf, hne', hf, hz, hs]
        · simp [unloadBufferCore, findBuf, hne', hf, hz, hs]

theorem loadBuffersLoop_notmem (B : Backend) (valid : Bool) (pre : String)
    (verify : Bool) (e : String × Nat) (ks : List String) :
    ∀ bufs : List (String × Nat), e.1 ∉ ks →
      loadBuffersLoop B valid pre verify (e :: bufs) ks =
        ((loadBuffersLoop B valid pre verify bufs ks).1,
          e :: (loadBuffersLoop B valid pre verify bufs ks).2) := by
  induction ks with
  | nil => intro bufs _; simp [loadBuffersLoop]
  | cons k ks ih =>
    intro bufs hmem
    have hne : e.1 ≠ k := fun hc => hmem (by simp [hc])
    have hmem' : e.1 ∉ ks := fun hc => hmem (by simp [hc])
    simp only [loadBuffersLoop]
    rw [loadBufferCore_cons_ne B valid pre e bufs k verify hne]
    rw [ih (loadBufferCore B valid pre bufs k verify).2.1 hmem']

theorem unloadBuffersLoop_notmem (B : Backend) (valid : Bool)
    (e : String × Nat) (ks : List String) :
    ∀ bufs : List (String × Nat), e.1 ∉ ks →
      unloadBuffersLoop B valid (e :: bufs) ks =
        ((unloadBuffersLoop B valid bufs ks).1,
          e :: (unloadBuffersLoop B valid bufs ks).2) := by
  induction ks with
  | nil => intro bufs _; simp [unloadBuffersLoop]
  | cons k ks ih =>
    intro bufs hmem
    have hne : e.1 ≠ k := fun hc => hmem (by simp [hc])
    have hmem' : e.1 ∉ ks := fun hc => hmem (by simp [hc])
    simp only [unloadBuffersLoop]
    rw [unloadBufferCore_cons_ne B valid e bufs k hne]
    rw [ih (unloadBufferCore B valid bufs k).2.1 hmem']

theorem loadBuffersLoop_map (B : Backend) (valid : Bool) (pre : String)
    (verify : Bool) :
    ∀ bufs : List (String × Nat), (bufs.map Prod.fst).Nodup →
      loadBuffersLoop B valid pre verify bufs (bufs.map Prod.fst) =
        (bufs.countP (loadSucc B valid pre verify),
          bufs.map (loadEntry B valid pre verify)) := by
  intro bufs
  induction bufs with
  | nil => intro _; simp [loadBuffersLoop]
  | cons e rest ih =>
    intro hnd
    obtain ⟨k, h⟩ := e
    simp only [List.map_cons, List.nodup_cons] at hnd
    obtain ⟨hnotin, hnd'⟩ := hnd
    have hhead := loadBufferCore_head B valid pre verify k h rest
    simp only [List.map_cons, loadBuffersLoop, hhead.1, hhead.2]
    rw [loadBuffersLoop_notmem B valid pre verify
      (loadEntry B valid pre verify (k, h)) (rest.map Prod.fst) rest
      (by rw [loadEntry_fst]; exact hnotin)]
    rw [ih hnd']
    simp [List.countP_cons, Nat.add_comm]

theorem unloadBuffersLoop_map (B : Backend) (valid : Bool) :
    ∀ bufs : List (String × Nat), (bufs.map Prod.fst).Nodup →
      unloadBuffersLoop B valid bufs (bufs.map Prod.fst) =
        (bufs.countP (unloadFail B valid),
          bufs.map (unloadEntry B valid)) := by
  intro bufs
  induction bufs with
  | nil => intro _; simp [unloadBuffersLoop]
  | cons e rest ih =>
    intro hnd
    obtain ⟨k, h⟩ := e
    simp only [List.map_cons, List.nodup_cons] at hnd
    obtain ⟨hnotin, hnd'⟩ := hnd
    have hhead := unloadBufferCore_head B valid k h rest
    simp only [List.map_cons, unloadBuffersLoop, hhead.1, hhead.2]
    rw [unloadBuffersLoop_notmem B valid
      (unloadEntry B valid (k, h)) (rest.map Prod.fst) rest
      (by rw [unloadEntry_fst]; exact hnotin)]
    rw [ih hnd']
    by_cases hfail : unloadFail B valid (k, h) = true
    · simp [List.countP_cons, hfail, Nat.add_comm]
    · simp [List.countP_cons, hfail]

theorem countP_ext (p q : String × Nat → Bool) (hpq : ∀ e, p e = q e) :
    ∀ l : List (String × Nat), l.countP p = l.countP q := by
  intro l
  induction l with
  | nil => simp
  | cons e rest ih => simp [List.countP_cons, hpq, ih]

theorem countP_map_local (f : String × Nat → String × Nat)
    (q : String × Nat → Bool) :
    ∀ l : List (String × Nat),
      (l.map f).countP q = l.countP (fun e => q (f e)) := by
  intro l
  induction l with
  | nil => simp
  | cons e rest ih => simp [List.countP_cons, ih]

theorem countP_zip_self (f : String × Nat → String × Nat)
    (q : (String × Nat) × (String × Nat) → Bool) :
    ∀ l : List (String × Nat),
      (l.zip (l.map f)).countP q = l.countP (fun e => q (e, f e)) := by
  intro l
  induction l with
  | nil => simp
  | cons e rest ih =>
    simp [List.map_cons, List.zip_cons_cons, List.countP_cons, ih]

theorem map_fst_loadEntry (B : Backend) (valid : Bool) (pre : String)
    (verify : Bool) :
    ∀ l : List (String × Nat),
      (l.map (loadEntry B valid pre verify)).map Prod.fst = l.map Prod.fst := by
  intro l
  induction l with
  | nil => simp
  | cons e rest ih => simp [loadEntry_fst, ih]

theorem loadSucc_eq_newly_loaded (B : Backend) (valid : Bool) (pre : String)
    (verify : Bool) (e : String × Nat) :
    decide (e.2 = 0 ∧ (loadEntry B valid pre verify e).2 ≠ 0) =
      loadSucc B valid pre verify e := by
  unfold loadEntry loadSucc
  by_cases hcond : valid = true ∧ e.2 = 0 ∧
      (verify = false ∨ B.fsOk (pre ++ e.1) = true) ∧ B.createBuf e.1 ≠ 0
  · rw [if_pos hcond]
    obtain ⟨h1, h2, h3, h4⟩ := hcond
    simp [h1, h2, h3, h4]
  · rw [if_neg hcond]
    simp [hcond]

theorem unloadFail_eq_still_loaded (B : Backend) (e : String × Nat) :
    unloadFail B true e = decide ((unloadEntry B true e).2 ≠ 0) := by
  unfold unloadFail unloadEntry
  by_cases hz : e.2 = 0
  · simp [hz]
  · by_cases hs : B.stillValid e.2 = false
    · simp [hz, hs]
    · simp [hz, hs]

theorem map_unloadEntry_invalid (B : Backend) :
    ∀ l : List (String × Nat), l.map (unloadEntry B false) = l := by
  intro l
  induction l with
  | nil => simp
  | cons e rest ih => simp [unloadEntry, ih]

theorem countP_unloadFail_invalid (B : Backend) :
    ∀ l : List (String × Nat), l.countP (unloadFail B false) = l.length := by
  intro l
  induction l with
  | nil => simp
  | cons e rest ih => simp [List.countP_cons, unloadFail, ih]

/-- C7 (amended): unloadBuffers always clears the group loaded flag and
attempts an unload of every entry.  When the manager is valid, the
returned count is exactly the number of entries that remain loaded
(handle still non-zero) afterwards.  When the manager is invalid, no
entry is touched and the returned count is the total number of entries,
loaded or not. -/
theorem unloadBuffers_spec (B : Backend) (g : State)
    (hnd : (g.buffers.map Prod.fst).Nodup) :
    (unloadBuffers B g).2.groupLoaded = false ∧
    (g.isParentValid = true →
      (unloadBuffers B g).1 =
        (unloadBuffers B g).2.buffers.countP (fun e => decide (e.2 ≠ 0))) ∧
    (g.isParentValid = false →
      (unloadBuffers B g).2.buffers = g.buffers ∧
      (unloadBuffers B g).1 = g.buffers.length) := by
  obtain ⟨gv, gp, gb, gl⟩ := g
  have hnd' : (gb.map Prod.fst).Nodup := hnd
  refine ⟨rfl, ?_, ?_⟩
  · intro hv
    have hv' : gv = true := hv
    subst hv'
    have hmap := unloadBuffersLoop_map B true gb hnd'
    simp only [unloadBuffers, hmap]
    rw [countP_map_local]
    exact countP_ext _ _ (fun e => unloadFail_eq_still_loaded B e) gb
  · intro hv
    have hv' : gv = false := hv
    subst hv'
    have hmap := unloadBuffersLoop_map B false gb hnd'
    simp only [unloadBuffers, hmap]
    exact ⟨map_unloadEntry_invalid B gb, countP_unloadFail_invalid B gb⟩

/-- C7 counterexample: with an invalidated manager and a single
registered-but-unloaded entry, unloadBuffers returns 1 although no
entry remains loaded afterwards, so the returned count is not the
number of entries that remain loaded. -/
theorem unloadBuffers_count_cex :
    (unloadBuffers bkOk gDead).1 = 1 ∧
    (unloadBuffers bkOk gDead).2.buffers.countP (fun e => decide (e.2 ≠ 0)) = 0 := by
  decide

/-- Witness for C7 on a concrete valid group. -/
theorem unloadBuffers_spec_witness :
    (unloadBuffers bkOk gMix).2.groupLoaded = false ∧
    (unloadBuffers bkOk gMix).1 =
      (unloadBuffers bkOk gMix).2.buffers.countP (fun e => decide (e.2 ≠ 0)) :=
  ⟨(unloadBuffers_spec bkOk gMix (by decide)).1,
    (unloadBuffers_spec bkOk gMix (by decide)).2.1 rfl⟩

/-- C8: loadBuffers sets the group loaded flag, keeps the set of
registered paths, and returns exactly the number of entries whose
handle went from 0 (unloaded) to non-zero (loaded) during this call. -/
theorem loadBuffers_spec (B : Backend) (g : State) (verify : Bool)
    (hnd : (g.buffers.map Prod.fst).Nodup) :
    (loadBuffers B g verify).2.groupLoaded = true ∧
    (loadBuffers B g verify).2.buffers.map Prod.fst = g.buffers.map Prod.fst ∧
    (loadBuffers B g verify).1 =
      (g.buffers.zip (loadBuffers B g verify).2.buffers).countP
        (fun pr => decide (pr.1.2 = 0 ∧ pr.2.2 ≠ 0)) := by
  obtain ⟨gv, gp, gb, gl⟩ := g
  have hnd' : (gb.map Prod.fst).Nodup := hnd
  have hmap := loadBuffersLoop_map B gv gp verify gb hnd'
  refine ⟨rfl, ?_, ?_⟩
  · simp only [loadBuffers, hmap]
    exact map_fst_loadEntry B gv gp verify gb
  · simp only [loadBuffers, hmap]
    rw [countP_zip_self]
    exact (countP_ext _ _
      (fun e => loadSucc_eq_newly_loaded B gv gp verify e) gb).symm

/-- Witness for C8 on a concrete valid group with one unloaded and one
loaded entry. -/
theorem loadBuffers_spec_witness :
    (loadBuffers bkOk gMix true).2.groupLoaded = true ∧
    (loadBuffers bkOk gMix true).2.buffers.map Prod.fst =
      gMix.buffers.map Prod.fst ∧
    (loadBuffers bkOk gMix true).1 =
      (gMix.buffers.zip (loadBuffers bkOk gMix true).2.buffers).countP
        (fun pr => decide (pr.1.2 = 0 ∧ pr.2.2 ≠ 0)) :=
  loadBuffers_spec bkOk gMix true (by decide)

end AudioBufferGroup
